import Mathlib

/-!
# Fortuna CSPRNG (Fortuna.cpp) — shallow embedding and verification

This file embeds the core of `src/Fortuna.cpp` — the entropy accumulator,
the AES-CTR generator, the seed manager and the `Fortuna` orchestrator —
as executable Lean definitions, and proves/refutes the specification
claims about them.

Bytes are modelled as `Nat` (values < 256 in practice); byte sequences as
`List Nat`.  The two cryptographic primitives (OpenSSL SHA-256 and
AES-256-CTR) are external library calls, not repository code, so the
development is parametrised over a `Prims` record holding an arbitrary
hash function and an arbitrary block cipher; the structural facts the
claims need (output lengths) are carried as explicit hypotheses that
model the primitives' documented behaviour (SHA-256 outputs 32 bytes,
CTR-mode encryption preserves the input length).
-/

/-- The cryptographic primitives of `Fortuna.cpp`: `sha256` (OpenSSL
`SHA256`) and `encryptCounter` (OpenSSL AES-256-CTR on a single block).
They are external library calls, kept abstract. -/
structure Prims where
  hash : List Nat → List Nat
  enc : List Nat → List Nat → List Nat

/-- SHA-256 produces a 32-byte digest for every input (OpenSSL contract
used by `sha256` in Fortuna.cpp, which allocates `SHA256_DIGEST_LENGTH`). -/
def HashLen32 (P : Prims) : Prop :=
  ∀ x, (P.hash x).length = 32

/-- CTR-mode encryption returns as many bytes as it is given
(`encryptCounter` allocates `out(counterBlock.size())` and `EVP_EncryptUpdate`
fills it). -/
def EncPreservesLen (P : Prims) : Prop :=
  ∀ k b, (P.enc k b).length = b.length

/-- Constant `POOL_COUNT = 32` in class `EntropyAccumulator`. -/
def POOL_COUNT : Nat := 32

/-- State of `EntropyAccumulator`: the array `pools` of `POOL_COUNT`
byte vectors, in index order. -/
structure AccState where
  pools : List (List Nat)
  deriving Repr, DecidableEq

/-- A freshly constructed `EntropyAccumulator`: 32 empty pools. -/
def initAcc : AccState :=
  ⟨List.replicate POOL_COUNT []⟩

/-- Method `EntropyAccumulator::addEntropy(data, source)`.
`int poolIndex = source % POOL_COUNT` uses C++ `%` on `int`, which is the
truncated remainder (`Int.tmod`): negative for negative `source` (unless a
multiple of 32).  `pools[poolIndex]` with a negative index is out of
bounds (undefined behaviour), modelled as `none`; otherwise the data is
appended to that one pool. -/
def EntropyAccumulator.addEntropy (data : List Nat) (source : Int) (a : AccState) : Option AccState :=
  let poolIndex : Int := Int.tmod source (POOL_COUNT : Int)
  if h : 0 ≤ poolIndex ∧ poolIndex.toNat < a.pools.length then
    some ⟨a.pools.set poolIndex.toNat (a.pools.get ⟨poolIndex.toNat, h.2⟩ ++ data)⟩
  else
    none

/-- Method `EntropyAccumulator::clearPools()`: empty each pool. -/
def clearPools (a : AccState) : AccState :=
  ⟨a.pools.map (fun _ => [])⟩

/-- Method `EntropyAccumulator::getReseedEntropy()`: concatenate all pools in
index order, hash the concatenation, clear the pools, return the digest. -/
def getReseedEntropy (P : Prims) (a : AccState) : List Nat × AccState :=
  let combined := a.pools.flatten
  let seed := P.hash combined
  (seed, clearPools a)

/-- State of `Generator`: 32-byte AES `key`, `uint64_t counter`, and
`size_t dataGenerated` (bytes since the last rekey). -/
structure GenState where
  key : List Nat
  counter : Nat
  dataGenerated : Nat
  deriving Repr, DecidableEq

/-- Constant `dataLimit = 1024 * 1024` (1 MiB) in class `Generator`. -/
def dataLimit : Nat := 1024 * 1024

/-- The 8-byte big-endian encoding of the low 64 bits of `c`
(`htobe64(counter)` stored into bytes 8..15 of the block). -/
def be64 (c : Nat) : List Nat :=
  [c / 2 ^ 56 % 256, c / 2 ^ 48 % 256, c / 2 ^ 40 % 256, c / 2 ^ 32 % 256,
   c / 2 ^ 24 % 256, c / 2 ^ 16 % 256, c / 2 ^ 8 % 256, c % 256]

/-- The 16-byte counter block built by `Generator::generateBlock`:
a zero-initialised block whose bytes 8..15 receive `htobe64(counter)`. -/
def counterBlock (c : Nat) : List Nat :=
  List.replicate 8 0 ++ be64 c

/-- Method `Generator::rekey()`: `key = sha256(key); dataGenerated = 0`. -/
def rekey (P : Prims) (g : GenState) : GenState :=
  { g with key := P.hash g.key, dataGenerated := 0 }

/-- Method `Generator::setKey(newKey)`: `key = newKey`, unconditionally; nothing
else changes. -/
def setKey (newKey : List Nat) (g : GenState) : GenState :=
  { g with key := newKey }

/-- Method `Generator::generateBlock()`: encrypt the counter block under the
current key, increment the 64-bit counter, add the block size to
`dataGenerated`, and rekey if `dataGenerated >= dataLimit`. -/
def generateBlock (P : Prims) (g : GenState) : List Nat × GenState :=
  let block := P.enc g.key (counterBlock g.counter)
  let g1 : GenState :=
    { key := g.key
      counter := (g.counter + 1) % 2 ^ 64
      dataGenerated := g.dataGenerated + block.length }
  (block, if g1.dataGenerated ≥ dataLimit then rekey P g1 else g1)

/-- The generator state after `k` successive `generateBlock()` calls. -/
def genIter (P : Prims) : Nat → GenState → GenState
  | 0, g => g
  | k + 1, g => genIter P k (generateBlock P g).2

/-- The seed file of `SeedManager`: present with some contents, absent,
or failing to open for reading.  `std::ifstream in(path); if (in)` is
true exactly in the `present` case. -/
inductive StorageState where
  | present (bytes : List Nat)
  | absent
  | openFail
  deriving Repr, DecidableEq

/-- Method `SeedManager::loadSeed()`: if the file opens, return its contents
verbatim; otherwise (absent or open failure alike) draw `fresh` (the
32 `RAND_bytes`), save it, and return it. -/
def loadSeed (fresh : List Nat) (st : StorageState) : List Nat × StorageState :=
  match st with
  | .present b => (b, .present b)
  | _ => (fresh, .present fresh)

/-- Method `SeedManager::saveSeed(seed)`: overwrite the file with the bytes. -/
def saveSeed (seed : List Nat) (_st : StorageState) : StorageState :=
  .present seed

/-- State of the `Fortuna` orchestrator: its `Generator`, its
`EntropyAccumulator`, and the seed file. -/
structure FortunaState where
  gen : GenState
  acc : AccState
  stored : StorageState
  deriving Repr, DecidableEq

/-- Constructor `Fortuna::Fortuna()`: `loadSeed` then `generator.setKey(initialSeed)`.
The `Generator` constructor starts with `counter = 0`, `dataGenerated = 0`
and a random key that `setKey` immediately overwrites; `fresh` stands for
the `RAND_bytes` drawn if the seed file does not open. -/
def mkFortuna (fresh : List Nat) (st : StorageState) : FortunaState :=
  { gen := { key := (loadSeed fresh st).1, counter := 0, dataGenerated := 0 }
    acc := initAcc
    stored := (loadSeed fresh st).2 }

/-- Method `Fortuna::reseed()`: get the digest of the pools (clearing them), set
it as the generator key, and save the same bytes to the seed file. -/
def Fortuna.reseed (P : Prims) (s : FortunaState) : FortunaState :=
  { gen := setKey (getReseedEntropy P s.acc).1 s.gen
    acc := (getReseedEntropy P s.acc).2
    stored := saveSeed (getReseedEntropy P s.acc).1 s.stored }

/-- Delegation `Fortuna::getAccumulator().addEntropy(data, source)`: delegate to the
accumulator; the generator and the seed file are untouched. -/
def Fortuna.addEntropy (data : List Nat) (source : Int) (s : FortunaState) :
    Option FortunaState :=
  (EntropyAccumulator.addEntropy data source s.acc).map fun a' => { s with acc := a' }

/-- The `while (result.size() < numBytes)` loop of
`Fortuna::getRandomBytes`, with explicit fuel.  The C++ loop does not
terminate if blocks were empty, which `none` models; with 16-byte blocks
fuel `n` always suffices.  On exit, `resize(numBytes)` truncates the
accumulated blocks to exactly `n` bytes (`List.take`). -/
def getRandomBytesAux (P : Prims) : Nat → GenState → Nat → List Nat →
    Option (List Nat × GenState)
  | 0, g, n, acc =>
      if acc.length < n then none else some (acc.take n, g)
  | fuel + 1, g, n, acc =>
      if acc.length < n then
        getRandomBytesAux P fuel (generateBlock P g).2 n (acc ++ (generateBlock P g).1)
      else
        some (acc.take n, g)

/-- Function `Fortuna::getRandomBytes(numBytes)` acting on the generator state. -/
def getRandomBytesGen (P : Prims) (g : GenState) (n : Nat) :
    Option (List Nat × GenState) :=
  getRandomBytesAux P n g n []

/-- Function `Fortuna::getRandomBytes(numBytes)` on the whole orchestrator state. -/
def Fortuna.getRandomBytes (P : Prims) (s : FortunaState) (n : Nat) :
    Option (List Nat × FortunaState) :=
  (getRandomBytesGen P s.gen n).map fun r => (r.1, { s with gen := r.2 })

/-- Big-endian interpretation of a byte sequence as a natural number,
used to talk about the "conceptually big-endian 128-bit counter". -/
def beToNat (l : List Nat) : Nat :=
  l.foldl (fun acc b => acc * 256 + b) 0

/-- A concrete choice of primitives with the right output shapes, used to
instantiate the abstract hypotheses on concrete inputs. -/
def samplePrims : Prims where
  hash x := List.replicate 32 ((x.sum + 1) % 256)
  enc k b := b.map fun y => (y + k.sum) % 256

/-- A concrete freshly constructed orchestrator, for instantiations. -/
def fortunaSample : FortunaState :=
  mkFortuna (List.replicate 32 0) StorageState.absent

/-- A concrete generator state, for instantiations. -/
def gSample : GenState :=
  { key := List.replicate 32 0, counter := 0, dataGenerated := 0 }

/-- A concrete generator state sitting 16 bytes below the rekey
threshold, for instantiations. -/
def gRekeySample : GenState :=
  { key := List.replicate 32 0, counter := 0, dataGenerated := dataLimit - 16 }

lemma samplePrims_hashLen : HashLen32 samplePrims := by
  intro x
  simp [samplePrims, HashLen32]

lemma samplePrims_encLen : EncPreservesLen samplePrims := by
  intro k b
  simp [samplePrims, EncPreservesLen]

lemma counterBlock_length (c : Nat) : (counterBlock c).length = 16 := rfl

lemma generateBlock_fst (P : Prims) (g : GenState) :
    (generateBlock P g).1 = P.enc g.key (counterBlock g.counter) := rfl

lemma generateBlock_counter (P : Prims) (g : GenState) :
    (generateBlock P g).2.counter = (g.counter + 1) % 2 ^ 64 := by
  dsimp only [generateBlock]
  split <;> rfl

/-- `generateBlock` when the rekey threshold is not reached. -/
lemma generateBlock_no_rekey (P : Prims) (g : GenState)
    (h : g.dataGenerated + (P.enc g.key (counterBlock g.counter)).length < dataLimit) :
    generateBlock P g =
      (P.enc g.key (counterBlock g.counter),
       { key := g.key, counter := (g.counter + 1) % 2 ^ 64,
         dataGenerated := g.dataGenerated + (P.enc g.key (counterBlock g.counter)).length }) := by
  dsimp only [generateBlock]
  rw [if_neg (by omega)]

/-- `generateBlock` when the rekey threshold is reached. -/
lemma generateBlock_rekey (P : Prims) (g : GenState)
    (h : dataLimit ≤ g.dataGenerated + (P.enc g.key (counterBlock g.counter)).length) :
    generateBlock P g =
      (P.enc g.key (counterBlock g.counter),
       { key := P.hash g.key, counter := (g.counter + 1) % 2 ^ 64,
         dataGenerated := 0 }) := by
  dsimp only [generateBlock, rekey]
  rw [if_pos (by omega)]

lemma genIter_succ_right (P : Prims) :
    ∀ (k : Nat) (g : GenState),
      genIter P (k + 1) g = (generateBlock P (genIter P k g)).2 := by
  intro k
  induction k with
  | zero => intro g; rfl
  | succ k ih =>
    intro g
    show genIter P (k + 1) (generateBlock P g).2 = _
    rw [ih]
    rfl

lemma genIter_counter (P : Prims) :
    ∀ (k : Nat) (g : GenState), g.counter < 2 ^ 64 →
      (genIter P k g).counter = (g.counter + k) % 2 ^ 64 := by
  intro k
  induction k with
  | zero =>
    intro g hc
    show g.counter = (g.counter + 0) % 2 ^ 64
    rw [Nat.add_zero, Nat.mod_eq_of_lt hc]
  | succ k ih =>
    intro g hc
    show (genIter P k (generateBlock P g).2).counter = _
    rw [ih _ (by rw [generateBlock_counter]; exact Nat.mod_lt _ (by norm_num)),
      generateBlock_counter, Nat.mod_add_mod]
    congr 1
    omega

lemma getRandomBytesAux_step (P : Prims) (fuel : Nat) (g : GenState) (n : Nat)
    (acc : List Nat) (hf : fuel ≠ 0) (h : acc.length < n) :
    getRandomBytesAux P fuel g n acc =
      getRandomBytesAux P (fuel - 1) (generateBlock P g).2 n
        (acc ++ (generateBlock P g).1) := by
  cases fuel with
  | zero => exact absurd rfl hf
  | succ fuel =>
    show (if acc.length < n then _ else _) = _
    rw [if_pos h, Nat.add_sub_cancel]

lemma getRandomBytesAux_done (P : Prims) (fuel : Nat) (g : GenState) (n : Nat)
    (acc : List Nat) (h : n ≤ acc.length) :
    getRandomBytesAux P fuel g n acc = some (acc.take n, g) := by
  cases fuel with
  | zero =>
    show (if acc.length < n then _ else _) = _
    rw [if_neg (by omega)]
  | succ fuel =>
    show (if acc.length < n then _ else _) = _
    rw [if_neg (by omega)]

lemma getRandomBytesAux_spec (P : Prims) (hE : EncPreservesLen P) :
    ∀ (fuel : Nat) (g : GenState) (n : Nat) (acc : List Nat),
      n ≤ acc.length + 16 * fuel →
      ∃ r g', getRandomBytesAux P fuel g n acc = some (r, g') ∧ r.length = n := by
  intro fuel
  induction fuel with
  | zero =>
    intro g n acc h
    rw [getRandomBytesAux_done P 0 g n acc (by omega)]
    exact ⟨acc.take n, g, rfl, by rw [List.length_take]; omega⟩
  | succ fuel ih =>
    intro g n acc h
    by_cases hlt : acc.length < n
    · rw [getRandomBytesAux_step P (fuel + 1) g n acc (by omega) hlt]
      have hb : ((generateBlock P g).1).length = 16 := by
        rw [generateBlock_fst, hE]
        rfl
      exact ih _ n _ (by rw [List.length_append, hb]; omega)
    · rw [getRandomBytesAux_done P (fuel + 1) g n acc (by omega)]
      exact ⟨acc.take n, g, rfl, by rw [List.length_take]; omega⟩

lemma beToNat_counterBlock (c : Nat) : beToNat (counterBlock c) = c % 2 ^ 64 := by
  show beToNat [0, 0, 0, 0, 0, 0, 0, 0,
    c / 2 ^ 56 % 256, c / 2 ^ 48 % 256, c / 2 ^ 40 % 256, c / 2 ^ 32 % 256,
    c / 2 ^ 24 % 256, c / 2 ^ 16 % 256, c / 2 ^ 8 % 256, c % 256] = c % 2 ^ 64
  simp only [beToNat, List.foldl_cons, List.foldl_nil]
  omega

lemma beToNat_be64 (c : Nat) : beToNat (be64 c) = c % 2 ^ 64 := by
  simp only [beToNat, be64, List.foldl_cons, List.foldl_nil]
  omega

lemma addEntropy_eq (data : List Nat) (source : Int) (a : AccState)
    (hs : 0 ≤ source) (hi : (Int.tmod source 32).toNat < a.pools.length) :
    EntropyAccumulator.addEntropy data source a =
      some ⟨a.pools.set (Int.tmod source 32).toNat
        (a.pools.get ⟨(Int.tmod source 32).toNat, hi⟩ ++ data)⟩ := by
  have h1 : 0 ≤ Int.tmod source 32 := Int.tmod_nonneg _ hs
  simp only [EntropyAccumulator.addEntropy, POOL_COUNT, Nat.cast_ofNat]
  rw [dif_pos ⟨h1, hi⟩]

/-- C2: for every non-negative `n`, `getRandomBytes(n)` returns a byte
sequence of length exactly `n` (given that the cipher primitive preserves
block length, so each generated block has 16 bytes); and for `n = 0` it
returns the empty sequence without invoking the generator, leaving the
whole state — key, counter, `dataGenerated`, pools, storage — unchanged. -/
theorem getRandomBytes_exact_length (P : Prims) (hE : EncPreservesLen P)
    (s : FortunaState) (n : Nat) :
    (∃ r s', Fortuna.getRandomBytes P s n = some (r, s') ∧ r.length = n) ∧
    Fortuna.getRandomBytes P s 0 = some ([], s) := by
  constructor
  · obtain ⟨r, g', hr, hlen⟩ :=
      getRandomBytesAux_spec P hE n s.gen n [] (by simp only [List.length_nil]; omega)
    refine ⟨r, { s with gen := g' }, ?_, hlen⟩
    simp only [Fortuna.getRandomBytes, getRandomBytesGen, hr, Option.map_some']
  · rfl

/-- C2 witness: the theorem instantiated with concrete primitives and a
concrete state, at `n = 5` and `n = 0`. -/
theorem getRandomBytes_exact_length_witness :
    (∃ r s', Fortuna.getRandomBytes samplePrims fortunaSample 5 = some (r, s') ∧
      r.length = 5) ∧
    Fortuna.getRandomBytes samplePrims fortunaSample 0 = some ([], fortunaSample) :=
  getRandomBytes_exact_length samplePrims samplePrims_encLen fortunaSample 5

/-- C5: immediately after every `reseed()`, the generator's live key is
exactly what was persisted to storage in that same call, the key has 32
bytes (given the 32-byte digest contract of the hash primitive), and all
pools of the accumulator are empty, so a following `getReseedEntropy()`
operates over empty pools and hashes the empty string. -/
theorem reseed_atomic (P : Prims) (hH : HashLen32 P) (s : FortunaState) :
    (Fortuna.reseed P s).stored =
      StorageState.present (Fortuna.reseed P s).gen.key ∧
    (Fortuna.reseed P s).gen.key.length = 32 ∧
    (∀ p ∈ (Fortuna.reseed P s).acc.pools, p = []) ∧
    (getReseedEntropy P (Fortuna.reseed P s).acc).1 = P.hash [] := by
  refine ⟨rfl, hH _, ?_, ?_⟩
  · intro p hp
    simp only [Fortuna.reseed, getReseedEntropy, clearPools, List.mem_map] at hp
    obtain ⟨q, _, hq⟩ := hp
    exact hq.symm
  · simp only [Fortuna.reseed, getReseedEntropy, clearPools]
    congr 1
    rw [List.flatten_eq_nil_iff]
    intro l hl
    obtain ⟨q, _, hq⟩ := List.mem_map.mp hl
    exact hq.symm

/-- C5 witness: the theorem instantiated with concrete primitives and a
concrete state (the two equational conjuncts). -/
theorem reseed_atomic_witness :
    (Fortuna.reseed samplePrims fortunaSample).stored =
      StorageState.present (Fortuna.reseed samplePrims fortunaSample).gen.key ∧
    (Fortuna.reseed samplePrims fortunaSample).gen.key.length = 32 :=
  ⟨(reseed_atomic samplePrims samplePrims_hashLen fortunaSample).1,
   (reseed_atomic samplePrims samplePrims_hashLen fortunaSample).2.1⟩

/-- C6 counterexample: the claim (echoing the spec's data-model wording)
says the counter occupies the high-order 64 bits of the conceptually
big-endian 128-bit counter block, the low-order 64 bits being zero.  At
counter value 1 the block built by the code has big-endian value 1, so
its high-order 64 bits are 0, not the counter value, and its low-order
64 bits are 1, not zero. -/
theorem counterBlock_high_order_false :
    ¬ (beToNat (counterBlock 1) / 2 ^ 64 = 1 ∧
       beToNat (counterBlock 1) % 2 ^ 64 = 0) := by
  decide

/-- C6 amended: for every `generateBlock()` call, the 16-byte block
passed to the cipher has its first 8 bytes zero and its last 8 bytes the
big-endian encoding of the current counter value; in the big-endian
reading of the whole 128-bit block the counter occupies the LOW-order 64
bits (the second half of the block) while the HIGH-order 64 bits are
zero. -/
theorem counterBlock_layout (P : Prims) (g : GenState)
    (hc : g.counter < 2 ^ 64) :
    (generateBlock P g).1 = P.enc g.key (counterBlock g.counter) ∧
    (counterBlock g.counter).length = 16 ∧
    (counterBlock g.counter).take 8 = List.replicate 8 0 ∧
    (counterBlock g.counter).drop 8 = be64 g.counter ∧
    beToNat (be64 g.counter) = g.counter ∧
    beToNat (counterBlock g.counter) = g.counter ∧
    beToNat (counterBlock g.counter) / 2 ^ 64 = 0 ∧
    beToNat (counterBlock g.counter) % 2 ^ 64 = g.counter := by
  have h1 : beToNat (counterBlock g.counter) = g.counter := by
    rw [beToNat_counterBlock, Nat.mod_eq_of_lt hc]
  have h2 : beToNat (be64 g.counter) = g.counter := by
    rw [beToNat_be64, Nat.mod_eq_of_lt hc]
  exact ⟨rfl, rfl, rfl, rfl, h2, h1, by rw [h1]; exact Nat.div_eq_of_lt hc,
    by rw [h1]; exact Nat.mod_eq_of_lt hc⟩

/-- C6 witness: the amended layout at a concrete generator state. -/
theorem counterBlock_layout_witness :
    (generateBlock samplePrims gSample).1 =
      samplePrims.enc gSample.key (counterBlock gSample.counter) ∧
    (counterBlock gSample.counter).length = 16 ∧
    (counterBlock gSample.counter).take 8 = List.replicate 8 0 ∧
    (counterBlock gSample.counter).drop 8 = be64 gSample.counter ∧
    beToNat (be64 gSample.counter) = gSample.counter ∧
    beToNat (counterBlock gSample.counter) = gSample.counter ∧
    beToNat (counterBlock gSample.counter) / 2 ^ 64 = 0 ∧
    beToNat (counterBlock gSample.counter) % 2 ^ 64 = gSample.counter :=
  counterBlock_layout samplePrims gSample (by norm_num [gSample])

/-- C7 counterexample: `setKey` accepts a 31-byte key without any check:
the wrong-length value becomes the generator key verbatim, so
wrong-length keys are not rejected at the API boundary. -/
theorem setKey_accepts_wrong_length :
    (setKey (List.replicate 31 5)
        { key := List.replicate 32 0, counter := 0, dataGenerated := 0 }).key =
      List.replicate 31 5 ∧
    (List.replicate 31 5).length ≠ 32 := by
  exact ⟨rfl, by decide⟩

/-- C7 amended: `setKey(newKey)` replaces the key unconditionally with
the given value of any length — it performs no length validation, and it
neither truncates nor pads the value; counter and `dataGenerated` are
untouched. -/
theorem setKey_unconditional (newKey : List Nat) (g : GenState) :
    setKey newKey g =
      { key := newKey, counter := g.counter,
        dataGenerated := g.dataGenerated } :=
  rfl

/-- C10: if `reseed()` runs while all pools are empty (e.g. with no prior
`addEntropy` call), the generator's key and the stored seed both become
`hash([])` — the digest of the empty byte string, a fixed value computed
identically on every run (for the code's hash primitive, SHA-256, this is
the well-known public constant `e3b0c442...`). -/
theorem reseed_empty_pools (P : Prims) (s : FortunaState)
    (h : ∀ p ∈ s.acc.pools, p = []) :
    (Fortuna.reseed P s).gen.key = P.hash [] ∧
    (Fortuna.reseed P s).stored = StorageState.present (P.hash []) ∧
    (getReseedEntropy P s.acc).1 = P.hash [] := by
  have hf : s.acc.pools.flatten = [] := List.flatten_eq_nil_iff.mpr h
  refine ⟨?_, ?_, ?_⟩ <;>
    simp only [Fortuna.reseed, getReseedEntropy, setKey, saveSeed, hf]

/-- C10 witness: reseeding the freshly constructed orchestrator (no
entropy ever added) keys the generator with the digest of the empty
string. -/
theorem reseed_empty_pools_witness :
    (Fortuna.reseed samplePrims fortunaSample).gen.key = samplePrims.hash [] ∧
    (Fortuna.reseed samplePrims fortunaSample).stored =
      StorageState.present (samplePrims.hash []) ∧
    (getReseedEntropy samplePrims fortunaSample.acc).1 = samplePrims.hash [] :=
  reseed_empty_pools samplePrims fortunaSample (by decide)

/-- C3: once the 1 MiB threshold is reached (the code checks
`dataGenerated >= dataLimit` after adding the 16-byte block), the key
for the next block becomes `hash(oldKey)` and so differs from the key
used before crossing (given that the hash has no fixed point at this
key, the cryptographic expectation for SHA-256); `dataGenerated` resets
to 0 < 16 (and < `dataLimit`) immediately after the rekeying block; and
below the threshold the key is unchanged while `dataGenerated` grows by
exactly 16, hence is monotonically non-decreasing between rekeys. -/
theorem rekey_trigger (P : Prims) (hE : EncPreservesLen P) (g : GenState)
    (hfix : P.hash g.key ≠ g.key) :
    (dataLimit ≤ g.dataGenerated + 16 →
      (generateBlock P g).2.key = P.hash g.key ∧
      (generateBlock P g).2.key ≠ g.key ∧
      (generateBlock P g).2.dataGenerated = 0 ∧
      (generateBlock P g).2.dataGenerated < 16 ∧
      (generateBlock P g).2.dataGenerated < dataLimit) ∧
    (g.dataGenerated + 16 < dataLimit →
      (generateBlock P g).2.key = g.key ∧
      (generateBlock P g).2.dataGenerated = g.dataGenerated + 16 ∧
      g.dataGenerated ≤ (generateBlock P g).2.dataGenerated) := by
  have hb : (P.enc g.key (counterBlock g.counter)).length = 16 := by
    rw [hE]
    rfl
  constructor
  · intro h
    rw [generateBlock_rekey P g (by rw [hb]; omega)]
    refine ⟨rfl, hfix, rfl, ?_, ?_⟩
    · show (0 : Nat) < 16
      norm_num
    · show (0 : Nat) < dataLimit
      norm_num [dataLimit]
  · intro h
    rw [generateBlock_no_rekey P g (by rw [hb]; omega)]
    refine ⟨rfl, ?_, ?_⟩
    · show g.dataGenerated + (P.enc g.key (counterBlock g.counter)).length = _
      rw [hb]
    · show g.dataGenerated ≤
        g.dataGenerated + (P.enc g.key (counterBlock g.counter)).length
      omega

/-- C3 witness: at a concrete state sitting 16 bytes below the
threshold, the block that crosses it replaces the key and resets
`dataGenerated` to 0. -/
theorem rekey_trigger_witness :
    (generateBlock samplePrims gRekeySample).2.key =
      samplePrims.hash gRekeySample.key ∧
    (generateBlock samplePrims gRekeySample).2.key ≠ gRekeySample.key ∧
    (generateBlock samplePrims gRekeySample).2.dataGenerated = 0 :=
  have h := (rekey_trigger samplePrims samplePrims_encLen gRekeySample
    (by decide)).1 (by norm_num [gRekeySample, dataLimit])
  ⟨h.1, h.2.1, h.2.2.1⟩

/-- C4: across any sequence of `generateBlock()` calls without an
intervening `setKey`, as long as the distance between two calls is below
the 64-bit wraparound (which the claim itself puts out of practical
reach), the (key, counter) pairs used at those calls differ, because the
counter advances by exactly 1 (mod 2^64) at every call. -/
theorem no_pair_reuse (P : Prims) (g : GenState) (hc : g.counter < 2 ^ 64)
    (i j : Nat) (hij : i < j) (hspan : j - i < 2 ^ 64) :
    ((genIter P i g).key, (genIter P i g).counter) ≠
      ((genIter P j g).key, (genIter P j g).counter) ∧
    ∀ k, (genIter P (k + 1) g).counter =
      ((genIter P k g).counter + 1) % 2 ^ 64 := by
  constructor
  · intro hpair
    have h2 : (genIter P i g).counter = (genIter P j g).counter :=
      congrArg Prod.snd hpair
    rw [genIter_counter P i g hc, genIter_counter P j g hc] at h2
    have hmeq : Nat.ModEq (2 ^ 64) i j :=
      Nat.ModEq.add_left_cancel' g.counter h2
    have hdvd : (2 ^ 64 : Nat) ∣ j - i :=
      (Nat.modEq_iff_dvd' (Nat.le_of_lt hij)).mp hmeq
    have := Nat.le_of_dvd (by omega) hdvd
    omega
  · intro k
    rw [genIter_succ_right P k g, generateBlock_counter]

/-- C4 witness: the first two calls on a concrete fresh generator use
distinct (key, counter) pairs. -/
theorem no_pair_reuse_witness :
    ((genIter samplePrims 0 gSample).key,
      (genIter samplePrims 0 gSample).counter) ≠
      ((genIter samplePrims 1 gSample).key,
        (genIter samplePrims 1 gSample).counter) :=
  (no_pair_reuse samplePrims gSample (by norm_num [gSample]) 0 1
    (by norm_num) (by norm_num)).1

/-- C8 counterexample: when the seed file fails to open for reading, the
code behaves exactly as when the seed is absent — it synthesizes the
fresh `RAND_bytes` value, saves it, and returns it.  A read error is
therefore conflated with absence and never surfaced as a distinct
failure, contrary to the claim. -/
theorem loadSeed_error_eq_absent :
    loadSeed (List.replicate 32 7) StorageState.openFail =
      (List.replicate 32 7, StorageState.present (List.replicate 32 7)) ∧
    loadSeed (List.replicate 32 7) StorageState.openFail =
      loadSeed (List.replicate 32 7) StorageState.absent :=
  ⟨rfl, rfl⟩

/-- C8 amended: the Orchestrator synthesizes and saves a fresh seed
whenever the seed file cannot be opened for reading — whether the file
is absent or the open errored.  `loadSeed` has no failure outcome at
all: open failure is treated identically to absence, not surfaced as a
distinct failure. -/
theorem mkFortuna_conflates_error_with_absent (fresh : List Nat)
    (st : StorageState)
    (h : st = StorageState.absent ∨ st = StorageState.openFail) :
    (mkFortuna fresh st).gen.key = fresh ∧
    (mkFortuna fresh st).stored = StorageState.present fresh := by
  rcases h with h | h <;> subst h <;> exact ⟨rfl, rfl⟩

/-- C8 witness: the amended behaviour at a concrete open failure. -/
theorem mkFortuna_conflates_error_with_absent_witness :
    (mkFortuna (List.replicate 32 7) StorageState.openFail).gen.key =
      List.replicate 32 7 ∧
    (mkFortuna (List.replicate 32 7) StorageState.openFail).stored =
      StorageState.present (List.replicate 32 7) :=
  mkFortuna_conflates_error_with_absent (List.replicate 32 7)
    StorageState.openFail (Or.inr rfl)

/-- C9 counterexample: for the negative source `-1`, C++ `%` yields the
negative pool index `-1`, so `pools[poolIndex]` is out of bounds
(undefined behaviour, modelled as `none`): `addEntropy` does not append
at an in-bounds index for every integer source. -/
theorem addEntropy_negative_source_oob :
    EntropyAccumulator.addEntropy [1] (-1) initAcc = none ∧
    Int.tmod (-1) 32 = -1 := by
  exact ⟨by decide, by decide⟩

/-- C9 amended: for every byte sequence `data` (including empty) and
every NON-NEGATIVE source, `addEntropy(data, source)` succeeds, appends
`data` to the pool at the in-bounds index `source % 32`, and mutates
exactly that one pool — the other pools, the generator state and the
seed file are unchanged.  (For negative sources not divisible by 32 the
computed pool index is negative and out of bounds.) -/
theorem addEntropy_nonneg_total (data : List Nat) (source : Int)
    (s : FortunaState) (hs : 0 ≤ source)
    (hlen : s.acc.pools.length = POOL_COUNT) :
    ∃ s', Fortuna.addEntropy data source s = some s' ∧
      s'.gen = s.gen ∧ s'.stored = s.stored ∧
      (Int.tmod source 32).toNat < POOL_COUNT ∧
      s'.acc.pools.length = POOL_COUNT ∧
      (∃ old, s.acc.pools[(Int.tmod source 32).toNat]? = some old ∧
        s'.acc.pools[(Int.tmod source 32).toNat]? = some (old ++ data)) ∧
      ∀ j, j ≠ (Int.tmod source 32).toNat →
        s'.acc.pools[j]? = s.acc.pools[j]? := by
  have h1 : 0 ≤ Int.tmod source 32 := Int.tmod_nonneg _ hs
  have h2 : Int.tmod source 32 < 32 := Int.tmod_lt_of_pos _ (by norm_num)
  have hidx : (Int.tmod source 32).toNat < POOL_COUNT := by
    simp only [POOL_COUNT]
    omega
  have hib : (Int.tmod source 32).toNat < s.acc.pools.length := by
    rw [hlen]
    exact hidx
  refine ⟨{ s with acc := ⟨s.acc.pools.set (Int.tmod source 32).toNat
      (s.acc.pools.get ⟨(Int.tmod source 32).toNat, hib⟩ ++ data)⟩ },
    ?_, rfl, rfl, hidx, ?_, ?_, ?_⟩
  · simp only [Fortuna.addEntropy, addEntropy_eq data source s.acc hs hib,
      Option.map_some']
  · show (s.acc.pools.set _ _).length = POOL_COUNT
    rw [List.length_set]
    exact hlen
  · refine ⟨s.acc.pools.get ⟨(Int.tmod source 32).toNat, hib⟩, ?_, ?_⟩
    · rw [List.getElem?_eq_getElem hib]
      rfl
    · show (s.acc.pools.set _ _)[(Int.tmod source 32).toNat]? = _
      rw [List.getElem?_set_self hib]
  · intro j hj
    show (s.acc.pools.set _ _)[j]? = _
    exact List.getElem?_set_ne (fun he => hj he.symm)

/-- C9 witness: the amended behaviour at a concrete state, data and
source. -/
theorem addEntropy_nonneg_total_witness :
    ∃ s', Fortuna.addEntropy [9] 3 fortunaSample = some s' ∧
      s'.gen = fortunaSample.gen ∧ s'.stored = fortunaSample.stored ∧
      (Int.tmod 3 32).toNat < POOL_COUNT ∧
      s'.acc.pools.length = POOL_COUNT ∧
      (∃ old, fortunaSample.acc.pools[(Int.tmod 3 32).toNat]? = some old ∧
        s'.acc.pools[(Int.tmod 3 32).toNat]? = some (old ++ [9])) ∧
      ∀ j, j ≠ (Int.tmod 3 32).toNat →
        s'.acc.pools[j]? = fortunaSample.acc.pools[j]? :=
  addEntropy_nonneg_total [9] 3 fortunaSample (by norm_num) (by decide)

lemma getRandomBytes_32_eq (P : Prims) (hE : EncPreservesLen P)
    (s : FortunaState) (h0 : s.gen.counter = 0)
    (hd : s.gen.dataGenerated = 0) :
    Fortuna.getRandomBytes P s 32 =
      some (P.enc s.gen.key (counterBlock 0) ++
            P.enc s.gen.key (counterBlock 1),
        { s with gen :=
          { key := s.gen.key, counter := 2, dataGenerated := 32 } }) := by
  obtain ⟨⟨k, c, d⟩, a, st0⟩ := s
  dsimp only at h0 hd ⊢
  subst h0
  subst hd
  have hb0 : (P.enc k (counterBlock 0)).length = 16 := by
    rw [hE]
    rfl
  have hb1 : (P.enc k (counterBlock 1)).length = 16 := by
    rw [hE]
    rfl
  have e1 : generateBlock P ⟨k, 0, 0⟩ =
      (P.enc k (counterBlock 0), (⟨k, 1, 16⟩ : GenState)) := by
    rw [generateBlock_no_rekey P ⟨k, 0, 0⟩
      (by show 0 + (P.enc k (counterBlock 0)).length < dataLimit
          rw [hb0]; norm_num [dataLimit])]
    rw [hb0]
    norm_num
  have e2 : generateBlock P ⟨k, 1, 16⟩ =
      (P.enc k (counterBlock 1), (⟨k, 2, 32⟩ : GenState)) := by
    rw [generateBlock_no_rekey P ⟨k, 1, 16⟩
      (by show 16 + (P.enc k (counterBlock 1)).length < dataLimit
          rw [hb1]; norm_num [dataLimit])]
    rw [hb1]
    norm_num
  have step1 : getRandomBytesAux P 32 (⟨k, 0, 0⟩ : GenState) 32 [] =
      getRandomBytesAux P 31 (⟨k, 1, 16⟩ : GenState) 32
        (P.enc k (counterBlock 0)) := by
    rw [getRandomBytesAux_step P 32 _ 32 [] (by norm_num) (by norm_num)]
    rw [e1]
    norm_num
  have step2 : getRandomBytesAux P 31 (⟨k, 1, 16⟩ : GenState) 32
        (P.enc k (counterBlock 0)) =
      getRandomBytesAux P 30 (⟨k, 2, 32⟩ : GenState) 32
        (P.enc k (counterBlock 0) ++ P.enc k (counterBlock 1)) := by
    rw [getRandomBytesAux_step P 31 _ 32 _ (by norm_num)
      (by rw [hb0]; norm_num)]
    rw [e2]
  have step3 : getRandomBytesAux P 30 (⟨k, 2, 32⟩ : GenState) 32
        (P.enc k (counterBlock 0) ++ P.enc k (counterBlock 1)) =
      some (P.enc k (counterBlock 0) ++ P.enc k (counterBlock 1),
        (⟨k, 2, 32⟩ : GenState)) := by
    rw [getRandomBytesAux_done P 30 _ 32 _
      (by rw [List.length_append, hb0, hb1])]
    rw [List.take_of_length_le (by rw [List.length_append, hb0, hb1])]
  show (getRandomBytesAux P 32 (⟨k, 0, 0⟩ : GenState) 32 []).map _ = _
  rw [step1, step2, step3]
  rfl

/-- C1: end-to-end scenario.  Starting from a fresh orchestrator, one
source adds `{0x01,0x02,0x03,0x04}` to pool 0 and `reseed()` is called:
the generator's new key is `hash(pool0_bytes ++ 31 empty pools)`; a
following `getRandomBytes(32)` then returns exactly
`encrypt(newKey, counter=0) ++ encrypt(newKey, counter=1)` — the two
16-byte blocks concatenated with no truncation (given the
length-preservation contract of the CTR cipher). -/
theorem scenario_end_to_end (P : Prims) (hE : EncPreservesLen P)
    (fresh : List Nat) (st : StorageState) :
    ∃ s1 sf,
      Fortuna.addEntropy [1, 2, 3, 4] 0 (mkFortuna fresh st) = some s1 ∧
      (Fortuna.reseed P s1).gen.key =
        P.hash ([1, 2, 3, 4] ++ (List.replicate 31 ([] : List Nat)).flatten) ∧
      Fortuna.getRandomBytes P (Fortuna.reseed P s1) 32 =
        some (P.enc (Fortuna.reseed P s1).gen.key (counterBlock 0) ++
              P.enc (Fortuna.reseed P s1).gen.key (counterBlock 1), sf) := by
  have hadd : Fortuna.addEntropy [1, 2, 3, 4] 0 (mkFortuna fresh st) =
      some ⟨{ key := (loadSeed fresh st).1, counter := 0, dataGenerated := 0 },
        ⟨[1, 2, 3, 4] :: List.replicate 31 []⟩, (loadSeed fresh st).2⟩ := by
    show (EntropyAccumulator.addEntropy [1, 2, 3, 4] 0 initAcc).map _ = _
    rw [show EntropyAccumulator.addEntropy [1, 2, 3, 4] 0 initAcc =
      some ⟨[1, 2, 3, 4] :: List.replicate 31 []⟩ from by decide]
    rfl
  exact ⟨_, _, hadd, rfl, getRandomBytes_32_eq P hE _ rfl rfl⟩

/-- C1 witness: the scenario instantiated with concrete primitives and a
concrete fresh start. -/
theorem scenario_end_to_end_witness :
    ∃ s1 sf,
      Fortuna.addEntropy [1, 2, 3, 4] 0
          (mkFortuna (List.replicate 32 0) StorageState.absent) = some s1 ∧
      (Fortuna.reseed samplePrims s1).gen.key =
        samplePrims.hash
          ([1, 2, 3, 4] ++ (List.replicate 31 ([] : List Nat)).flatten) ∧
      Fortuna.getRandomBytes samplePrims (Fortuna.reseed samplePrims s1) 32 =
        some (samplePrims.enc (Fortuna.reseed samplePrims s1).gen.key
                (counterBlock 0) ++
              samplePrims.enc (Fortuna.reseed samplePrims s1).gen.key
                (counterBlock 1), sf) :=
  scenario_end_to_end samplePrims samplePrims_encLen (List.replicate 32 0)
    StorageState.absent
